import Mathlib

/-!
Verification of the notebook-embedded helper functions in
`Chile_Wildfire_2024/functions.ipynb`: geographic subsetting
(`generate_geographical_subset`), RGB channel selection
(`select_channels_for_rgb`), min-max normalization (`normalize`) and the
plotting wrapper (`visualize_pcolormesh`).

Modelling choices (shallow embedding):
* Coordinates are exact rationals `ℚ` standing for the floating-point
  degree values of the source data.
* Data cells are `FVal := Option ℚ`: `some q` is a finite floating-point
  value, `none` is a non-finite value (IEEE NaN, as produced by `0/0`
  in the degenerate normalization case, or by masking in `xarray.where`).
* A `DataArray` is a labeled 2-D grid: a list of latitude labels, a list
  of longitude labels, and a row-major data matrix (rows indexed by
  latitude, columns by longitude).
* `xarray.DataArray.where(cond, drop=True)` keeps, along each dimension,
  exactly the indices at which the condition holds somewhere, and masks
  (sets to NaN) any remaining cell that fails the condition.
* A `Dataset` (band set) is an association list from channel name to
  grid; indexing a missing key raises `KeyError`, modelled by
  `Except String`.
* The plotting routine is modelled by the trace of calls it makes into
  the plotting library, so that its file-writing side effect is visible
  as data.
-/

namespace Wekeo

/-- A floating-point cell value: `some q` is a finite value, `none` is a
non-finite value (NaN). -/
abbrev FVal := Option ℚ

/-- Floating-point subtraction: NaN-propagating. -/
def fsub : FVal → FVal → FVal
  | some a, some b => some (a - b)
  | _, _ => none

/-- Floating-point division: NaN-propagating, and a zero divisor yields a
non-finite result (`0/0` is NaN; in `normalize` the numerator is always `0`
whenever the denominator is `0`). -/
def fdiv : FVal → FVal → FVal
  | some a, some b => if b = 0 then none else some (a / b)
  | _, _ => none

/-- Floating-point binary minimum, NaN-propagating (as `numpy.ndarray.min`
propagates NaN). -/
def fminV : FVal → FVal → FVal
  | some a, some b => some (min a b)
  | _, _ => none

/-- Floating-point binary maximum, NaN-propagating (as `numpy.ndarray.max`
propagates NaN). -/
def fmaxV : FVal → FVal → FVal
  | some a, some b => some (max a b)
  | _, _ => none

/-- A labeled grid (`xarray.DataArray`): latitude and longitude coordinate
axes and a row-major data matrix (one row per latitude label, one column
per longitude label). -/
@[ext]
structure DataArray where
  latitude : List ℚ
  longitude : List ℚ
  data : List (List FVal)
deriving DecidableEq

/-- A grid is well-formed when its data matrix has exactly one row per
latitude label and one column per longitude label (always true of a real
`xarray.DataArray`). -/
def WellFormed (g : DataArray) : Prop :=
  g.data.length = g.latitude.length ∧ ∀ row ∈ g.data, row.length = g.longitude.length

instance : DecidablePred WellFormed := fun g =>
  inferInstanceAs (Decidable (_ ∧ _))

/-- The Python `%` operation on floats with a positive modulus (also the
numpy one): `a % b = a - b * ⌊a / b⌋`. -/
def pymod (a b : ℚ) : ℚ := a - b * ⌊a / b⌋

/-- The longitude re-mapping `((lon + 180) % 360) - 180` applied by
`generate_geographical_subset` when `reassign=True`. -/
def reassignLon (lon : ℚ) : ℚ := pymod (lon + 180) 360 - 180

/-- Model of `xarray.DataArray.where(cond, drop=True)` for a condition that depends
on the latitude and longitude coordinates: along each dimension the indices
at which the condition holds nowhere are dropped (`xarray` selects, per
dimension, the indices where the condition is satisfied at least once), and
each remaining cell failing the condition is masked to NaN. -/
def whereDrop (g : DataArray) (cond : ℚ → ℚ → Bool) : DataArray where
  latitude := g.latitude.filter
    (fun la => g.longitude.any (fun lo => cond la lo))
  longitude := g.longitude.filter
    (fun lo => g.latitude.any (fun la => cond la lo))
  data := ((g.latitude.zip g.data).filter
      (fun p => g.longitude.any (fun lo => cond p.1 lo))).map
    (fun p => ((g.longitude.zip p.2).filter
        (fun q => g.latitude.any (fun la => cond la q.1))).map
      (fun q => if cond p.1 q.1 then q.2 else none))

/-- The function `generate_geographical_subset(xarray, latmin, latmax, lonmin, lonmax,
reassign)`: if `reassign` then first rebind the grid to one whose longitude
coordinates are re-mapped by `((lon + 180) % 360) - 180`, then return
`xarray.where((lat < latmax) & (lat > latmin) & (lon < lonmax) &
(lon > lonmin), drop=True)`. -/
def generate_geographical_subset (xarray : DataArray)
    (latmin latmax lonmin lonmax : ℚ) (reassign : Bool) : DataArray :=
  let xarray := if reassign then
      { xarray with longitude := xarray.longitude.map reassignLon }
    else xarray
  whereDrop xarray (fun la lo =>
    (((decide (la < latmax) && decide (la > latmin)) && decide (lo < lonmax))
      && decide (lo > lonmin)))

/-- An `xarray.Dataset` (band set): an association list from channel name
to grid; lookup returns the first binding of the key. -/
def Dataset := List (String × DataArray)

/-- Lookup `xarray[channel]`: dictionary-style lookup, raising `KeyError` (here
`Except.error` carrying the missing key) when the key is absent. -/
def dsGet (xarray : Dataset) (channel : String) : Except String DataArray :=
  match xarray.find? (fun p => p.1 == channel) with
  | some p => .ok p.2
  | none => .error channel

/-- Whether a channel name is bound in the band set. -/
def hasKey (xarray : Dataset) (channel : String) : Bool :=
  xarray.any (fun p => p.1 == channel)

/-- The function `select_channels_for_rgb(xarray, red_channel, green_channel,
blue_channel) = xarray[red_channel], xarray[green_channel],
xarray[blue_channel]` — three lookups evaluated left to right, the first
missing key raising `KeyError`. -/
def select_channels_for_rgb (xarray : Dataset)
    (red_channel green_channel blue_channel : String) :
    Except String (DataArray × DataArray × DataArray) :=
  match dsGet xarray red_channel with
  | .error e => .error e
  | .ok r =>
    match dsGet xarray green_channel with
    | .error e => .error e
    | .ok g =>
      match dsGet xarray blue_channel with
      | .error e => .error e
      | .ok b => .ok (r, g, b)

/-- All cell values of a grid in row-major order. -/
def cells (g : DataArray) : List FVal := g.data.flatten

/-- Fold of a NaN-propagating binary operation over a non-empty value
list (`numpy`-style whole-array reduction). -/
def reduceVals (op : FVal → FVal → FVal) : List FVal → FVal
  | [] => none
  | x :: xs => xs.foldl op x

/-- Reduction `array.min()`: NaN-propagating minimum over all cells. -/
def arrayMin (g : DataArray) : FVal := reduceVals fminV (cells g)

/-- Reduction `array.max()`: NaN-propagating maximum over all cells. -/
def arrayMax (g : DataArray) : FVal := reduceVals fmaxV (cells g)

/-- The function `normalize(array)`: `array_min, array_max = array.min(), array.max()`
then elementwise `(array - array_min) / (array_max - array_min)`,
preserving shape and coordinate labels. -/
def normalize (array : DataArray) : DataArray :=
  let array_min := arrayMin array
  let array_max := arrayMax array
  { array with data := array.data.map (fun row => row.map
      (fun v => fdiv (fsub v array_min) (fsub array_max array_min))) }

/-- The map projections relevant to the branching in `visualize_pcolormesh`
(the code compares the given projection with `ccrs.PlateCarree()`). -/
inductive Projection
  | plateCarree
  | mercator
  | other
deriving DecidableEq

/-- One call into the plotting library, recorded by the renderer model. -/
inductive PlotEffect
  | createFigure (width height dpi : ℚ)
  | createAxes (proj : Projection)
  | pcolormesh (color_scale : String) (vmin vmax : ℚ)
  | addBorders
  | addCoastline
  | setExtent (lonmin lonmax latmin latmax : ℚ)
  | gridlines
  | setGlobal
  | colorbar (unit : String)
  | setTitle (t : String)
  | savefig (path : String)
deriving DecidableEq

/-- The function `visualize_pcolormesh(...)`: modelled as the sequence of calls it makes
into the plotting library, in source order: figure creation at dpi 1200,
axes, `pcolormesh`, borders and coastline, the `PlateCarree` extent and
gridline block, the `set_global` block, colorbar, title, and finally
`plt.savefig` at a hard-coded path, `wildfire_co_300.png`. -/
def visualize_pcolormesh (data_array : DataArray) (longitude latitude : List ℚ)
    (projection : Projection) (color_scale unit long_name : String)
    (vmin vmax : ℚ) (set_global : Bool) (lonmin lonmax latmin latmax : ℚ) :
    List PlotEffect :=
  [.createFigure 10 15 1200, .createAxes projection,
   .pcolormesh color_scale vmin vmax, .addBorders, .addCoastline]
  ++ (if projection = .plateCarree then
        [.setExtent lonmin lonmax latmin latmax, .gridlines] else [])
  ++ (if set_global then [.setGlobal, .gridlines] else [])
  ++ [.colorbar unit, .setTitle long_name, .savefig ("wildfire_co_300.png")]

/-- The paths written to disk by a sequence of plotting calls. -/
def writesOf (effects : List PlotEffect) : List String :=
  effects.filterMap (fun e => match e with
    | .savefig path => some path
    | _ => none)

/-! ## General helper lemmas -/

theorem bool_eq_of_iff {a b : Bool} (h : a = true ↔ b = true) : a = b :=
  Bool.eq_iff_iff.mpr h

/-! ## Lemmas about the band-set lookup -/

theorem dsGet_eq_error_iff (d : Dataset) (k : String) :
    dsGet d k = .error k ↔ hasKey d k = false := by
  unfold dsGet
  rcases h : List.find? (fun p => p.1 == k) d with _ | p
  · rw [h]
    rw [List.find?_eq_none] at h
    simp only [hasKey, List.any_eq_false]
    exact iff_of_true (by trivial) h
  · rw [h]
    have hp := List.find?_some h
    have hm := List.mem_of_find?_eq_some h
    simp only [hasKey, List.any_eq_false]
    exact iff_of_false (by simp) (fun hall => (hall p hm) hp)

theorem dsGet_ok_of_hasKey (d : Dataset) (k : String) (h : hasKey d k = true) :
    ∃ X, dsGet d k = .ok X := by
  unfold hasKey at h
  rcases h' : List.find? (fun p => p.1 == k) d with _ | p
  · rw [List.find?_eq_none] at h'
    rw [List.any_eq_true] at h
    obtain ⟨x, hx, hpx⟩ := h
    exact absurd hpx (h' x hx)
  · exact ⟨p.2, by unfold dsGet; rw [h']⟩

theorem hasKey_of_dsGet_ok (d : Dataset) (k : String) (X : DataArray)
    (h : dsGet d k = .ok X) : hasKey d k = true := by
  rcases hk : hasKey d k with _ | _
  · rw [(dsGet_eq_error_iff d k).mpr hk] at h; cases h
  · rfl

theorem dsGet_error_shape (d : Dataset) (k : String) (e : String)
    (h : dsGet d k = .error e) : e = k ∧ hasKey d k = false := by
  unfold dsGet at h
  rcases h' : List.find? (fun p => p.1 == k) d with _ | p
  · rw [h'] at h
    injection h with he
    exact ⟨he.symm, (dsGet_eq_error_iff d k).mp (by unfold dsGet; rw [h'])⟩
  · rw [h'] at h; cases h

/-! ## Lemmas about the longitude re-mapping -/

theorem pymod_bounds (a b : ℚ) (hb : 0 < b) : 0 ≤ pymod a b ∧ pymod a b < b := by
  unfold pymod
  have h1 : (⌊a / b⌋ : ℚ) ≤ a / b := Int.floor_le _
  have h2 : a / b < ⌊a / b⌋ + 1 := Int.lt_floor_add_one _
  have hba : b * (a / b) = a := mul_div_cancel₀ a hb.ne'
  constructor
  · have := mul_le_mul_of_nonneg_left h1 hb.le
    rw [hba] at this
    linarith
  · have := mul_lt_mul_of_pos_left h2 hb
    rw [hba] at this
    nlinarith

theorem reassignLon_bounds (lon : ℚ) :
    -180 ≤ reassignLon lon ∧ reassignLon lon < 180 := by
  unfold reassignLon
  have h := pymod_bounds (lon + 180) 360 (by norm_num)
  constructor <;> linarith [h.1, h.2]

theorem reassignLon_fixed (x : ℚ) (h1 : -180 ≤ x) (h2 : x < 180) :
    reassignLon x = x := by
  unfold reassignLon pymod
  have hfloor : ⌊(x + 180) / 360⌋ = 0 := by
    rw [Int.floor_eq_zero_iff]
    constructor
    · exact div_nonneg (by linarith) (by norm_num)
    · rw [div_lt_one (by norm_num : (0:ℚ) < 360)]
      linarith
  rw [hfloor]
  push_cast
  ring

/-! ## Claim theorems: renderer and channel selection -/

/-- C10: Every invocation of `visualize_pcolormesh` writes an image file
to the same fixed output path (`wildfire_co_300.png`) as a side effect,
regardless of any caller-supplied arguments; each call overwrites that same
path, and no parameter can change or disable it. -/
theorem C10_renderer_fixed_output_path (data_array : DataArray)
    (longitude latitude : List ℚ) (projection : Projection)
    (color_scale unit long_name : String) (vmin vmax : ℚ) (set_global : Bool)
    (lonmin lonmax latmin latmax : ℚ) :
    writesOf (visualize_pcolormesh data_array longitude latitude projection
      color_scale unit long_name vmin vmax set_global
      lonmin lonmax latmin latmax) = ["wildfire_co_300.png"] := by
  cases projection <;> cases set_global <;> rfl

/-- C6: When all three requested keys are bound in the band set,
`select_channels_for_rgb` returns exactly the three grids registered under
those keys, as a triple in (red, green, blue) order, unmodified; the model
is a pure function, so the call has no side effects. -/
theorem C6_select_rgb_returns_bound_grids (d : Dataset)
    (red_channel green_channel blue_channel : String) (X Y Z : DataArray)
    (hr : dsGet d red_channel = .ok X) (hg : dsGet d green_channel = .ok Y)
    (hb : dsGet d blue_channel = .ok Z) :
    select_channels_for_rgb d red_channel green_channel blue_channel
      = .ok (X, Y, Z) := by
  unfold select_channels_for_rgb
  rw [hr, hg, hb]

/-- Concrete witness for C6: a three-band set returns its three grids in
(red, green, blue) order. -/
theorem C6_select_rgb_returns_bound_grids_witness :
    select_channels_for_rgb
      [("a", ⟨[1], [2], [[some 3]]⟩), ("b", ⟨[4], [5], [[some 6]]⟩),
       ("c", ⟨[7], [8], [[some 9]]⟩)] "a" "b" "c"
      = .ok (⟨[1], [2], [[some 3]]⟩, ⟨[4], [5], [[some 6]]⟩,
             ⟨[7], [8], [[some 9]]⟩) :=
  C6_select_rgb_returns_bound_grids
    [("a", ⟨[1], [2], [[some 3]]⟩), ("b", ⟨[4], [5], [[some 6]]⟩),
     ("c", ⟨[7], [8], [[some 9]]⟩)] "a" "b" "c"
    ⟨[1], [2], [[some 3]]⟩ ⟨[4], [5], [[some 6]]⟩ ⟨[7], [8], [[some 9]]⟩
    rfl rfl rfl

/-- C7: `select_channels_for_rgb` fails with a key-lookup error
(propagated `KeyError`, never a default value) if and only if at least one
of the three requested keys is absent from the band set. -/
theorem C7_select_rgb_error_iff_missing_key (d : Dataset)
    (red_channel green_channel blue_channel : String) :
    (∃ e, select_channels_for_rgb d red_channel green_channel blue_channel
        = .error e)
      ↔ (hasKey d red_channel = false ∨ hasKey d green_channel = false
          ∨ hasKey d blue_channel = false) := by
  constructor
  · rintro ⟨e, he⟩
    unfold select_channels_for_rgb at he
    rcases h1 : dsGet d red_channel with e1 | R <;> rw [h1] at he
    · exact Or.inl (dsGet_error_shape d red_channel e1 h1).2
    rcases h2 : dsGet d green_channel with e2 | G <;> rw [h2] at he
    · exact Or.inr (Or.inl (dsGet_error_shape d green_channel e2 h2).2)
    rcases h3 : dsGet d blue_channel with e3 | B <;> rw [h3] at he
    · exact Or.inr (Or.inr (dsGet_error_shape d blue_channel e3 h3).2)
    · cases he
  · intro h
    unfold select_channels_for_rgb
    rcases h1 : dsGet d red_channel with e1 | R
    · exact ⟨e1, rfl⟩
    rcases h2 : dsGet d green_channel with e2 | G
    · exact ⟨e2, rfl⟩
    rcases h3 : dsGet d blue_channel with e3 | B
    · exact ⟨e3, rfl⟩
    have k1 := hasKey_of_dsGet_ok d red_channel R h1
    have k2 := hasKey_of_dsGet_ok d green_channel G h2
    have k3 := hasKey_of_dsGet_ok d blue_channel B h3
    rcases h with h | h | h <;> simp_all

/-- Concrete witness for C7: requesting an unbound key ("d") makes the
selection raise a lookup failure. -/
theorem C7_select_rgb_error_iff_missing_key_witness :
    ∃ e, select_channels_for_rgb [("a", ⟨[], [], []⟩)] "a" "a" "d" = .error e :=
  (C7_select_rgb_error_iff_missing_key [("a", ⟨[], [], []⟩)] "a" "a" "d").mpr
    (Or.inr (Or.inr (by decide)))

/-! ## Claim theorems: longitude re-assignment (C2) -/

/-- C2: With `reassign=true` every longitude is first re-mapped by
`lon ↦ ((lon + 180) mod 360) - 180` before filtering, so every longitude of
the output grid is the re-map of some input longitude and lies in
`[-180, 180)`; the re-map always lands in `[-180, 180)` and is idempotent:
it fixes every value already in `[-180, 180)`. -/
theorem C2_reassign_range_and_idempotent (g : DataArray)
    (latmin latmax lonmin lonmax : ℚ) :
    (∀ lo ∈ (generate_geographical_subset g latmin latmax lonmin lonmax
        true).longitude,
      (-180 ≤ lo ∧ lo < 180) ∧ ∃ lon0 ∈ g.longitude, lo = reassignLon lon0)
    ∧ (∀ lon : ℚ, -180 ≤ reassignLon lon ∧ reassignLon lon < 180)
    ∧ (∀ x : ℚ, -180 ≤ x → x < 180 → reassignLon x = x) := by
  refine ⟨?_, reassignLon_bounds, reassignLon_fixed⟩
  intro lo hlo
  have hlo' : lo ∈ g.longitude.map reassignLon := List.mem_of_mem_filter hlo
  obtain ⟨lon0, hmem, rfl⟩ := List.mem_map.mp hlo'
  exact ⟨reassignLon_bounds lon0, lon0, hmem, rfl⟩

/-- Concrete witness for C2: the re-map sends 190 into `[-180, 180)` and
fixes −5, which is already in range. -/
theorem C2_reassign_range_and_idempotent_witness :
    ((-180 ≤ reassignLon 190 ∧ reassignLon 190 < 180)
      ∧ reassignLon (-5) = -5) :=
  ⟨(C2_reassign_range_and_idempotent ⟨[], [], []⟩ 0 0 0 0).2.1 190,
   (C2_reassign_range_and_idempotent ⟨[], [], []⟩ 0 0 0 0).2.2 (-5)
     (by norm_num) (by norm_num)⟩

/-! ## Lemmas about reductions over cell values (for `normalize`) -/

theorem fminV_none_left (x : FVal) : fminV none x = none := by cases x <;> rfl

theorem fminV_none_right (x : FVal) : fminV x none = none := by cases x <;> rfl

theorem fmaxV_none_left (x : FVal) : fmaxV none x = none := by cases x <;> rfl

theorem fmaxV_none_right (x : FVal) : fmaxV x none = none := by cases x <;> rfl

theorem foldl_fminV_none (t : List FVal) : t.foldl fminV none = none := by
  induction t with
  | nil => rfl
  | cons b t ih => rw [List.foldl_cons, fminV_none_left]; exact ih

theorem foldl_fmaxV_none (t : List FVal) : t.foldl fmaxV none = none := by
  induction t with
  | nil => rfl
  | cons b t ih => rw [List.foldl_cons, fmaxV_none_left]; exact ih

theorem foldl_fminV_none_mem (t : List FVal) (acc : FVal) (h : none ∈ t) :
    t.foldl fminV acc = none := by
  induction t generalizing acc with
  | nil => cases h
  | cons b t ih =>
    rcases List.mem_cons.mp h with hb | ht
    · rw [List.foldl_cons, ← hb, fminV_none_right]
      exact foldl_fminV_none t
    · exact ih _ ht

theorem reduceVals_fminV_finite (xs : List FVal) (m : ℚ)
    (h : reduceVals fminV xs = some m) : ∀ v ∈ xs, v ≠ none := by
  rcases xs with _ | ⟨x, t⟩
  · intro v hv; cases hv
  · intro v hv hvnone
    subst hvnone
    rcases List.mem_cons.mp hv with hx | ht
    · rw [reduceVals, ← hx, foldl_fminV_none] at h; cases h
    · rw [reduceVals, foldl_fminV_none_mem t x ht] at h; cases h

theorem exists_map_some_of_ne_none (xs : List FVal) (h : ∀ x ∈ xs, x ≠ none) :
    ∃ l : List ℚ, xs = l.map some := by
  induction xs with
  | nil => exact ⟨[], rfl⟩
  | cons x t ih =>
    obtain ⟨l, rfl⟩ := ih (fun y hy => h y (List.mem_cons_of_mem _ hy))
    rcases x with _ | q
    · exact absurd rfl (h none (List.mem_cons_self _ _))
    · exact ⟨q :: l, rfl⟩

theorem foldl_fminV_map_some (l : List ℚ) (a : ℚ) :
    (l.map some).foldl fminV (some a) = some (l.foldl min a) := by
  induction l generalizing a with
  | nil => rfl
  | cons b t ih =>
    simp only [List.map_cons, List.foldl_cons]
    exact ih (min a b)

theorem foldl_fmaxV_map_some (l : List ℚ) (a : ℚ) :
    (l.map some).foldl fmaxV (some a) = some (l.foldl max a) := by
  induction l generalizing a with
  | nil => rfl
  | cons b t ih =>
    simp only [List.map_cons, List.foldl_cons]
    exact ih (max a b)

theorem foldl_min_map (f : ℚ → ℚ) (hf : ∀ x y, f (min x y) = min (f x) (f y))
    (t : List ℚ) (a : ℚ) : (t.map f).foldl min (f a) = f (t.foldl min a) := by
  induction t generalizing a with
  | nil => rfl
  | cons b t ih =>
    simp only [List.map_cons, List.foldl_cons, ← hf]
    exact ih (min a b)

theorem foldl_max_map (f : ℚ → ℚ) (hf : ∀ x y, f (max x y) = max (f x) (f y))
    (t : List ℚ) (a : ℚ) : (t.map f).foldl max (f a) = f (t.foldl max a) := by
  induction t generalizing a with
  | nil => rfl
  | cons b t ih =>
    simp only [List.map_cons, List.foldl_cons, ← hf]
    exact ih (max a b)

theorem cells_normalize (A : DataArray) :
    cells (normalize A) = (cells A).map
      (fun v => fdiv (fsub v (arrayMin A)) (fsub (arrayMax A) (arrayMin A))) := by
  show (A.data.map (List.map _)).flatten = A.data.flatten.map _
  simp [List.map_flatten]

/-! ## Claim theorems: normalization (C3, C4) -/

/-- C3: For a non-constant array (finite minimum `m` < finite maximum
`M`), `normalize` keeps the coordinate labels and shape, computes the
elementwise value `(v - m) / (M - m)` at every cell (no NaN is produced),
the result has minimum 0 and maximum 1, and normalizing twice equals
normalizing once. -/
theorem C3_normalize_minmax_formula_idempotent (A : DataArray) (m M : ℚ)
    (hm : arrayMin A = some m) (hM : arrayMax A = some M) (hlt : m < M) :
    (normalize A).latitude = A.latitude
    ∧ (normalize A).longitude = A.longitude
    ∧ (normalize A).data
        = A.data.map (fun row => row.map
            (Option.map (fun x => (x - m) / (M - m))))
    ∧ arrayMin (normalize A) = some 0
    ∧ arrayMax (normalize A) = some 1
    ∧ normalize (normalize A) = normalize A := by
  have hd : (0:ℚ) < M - m := by linarith
  have hd' : M - m ≠ 0 := ne_of_gt hd
  set f : ℚ → ℚ := fun x => (x - m) / (M - m) with hf_def
  have hfin : ∀ v ∈ cells A, v ≠ none := reduceVals_fminV_finite (cells A) m hm
  -- the elementwise formula
  have hdata : (normalize A).data
      = A.data.map (fun row => row.map (Option.map f)) := by
    show A.data.map (List.map _) = _
    rw [hm, hM]
    refine List.map_congr_left (fun row hrow => ?_)
    refine List.map_congr_left (fun v hv => ?_)
    have hvne : v ≠ none := hfin v (List.mem_flatten.mpr ⟨row, hrow, hv⟩)
    rcases v with _ | x
    · exact absurd rfl hvne
    · show fdiv (fsub (some x) (some m)) (fsub (some M) (some m))
        = Option.map f (some x)
      simp only [fsub, fdiv, Option.map_some']
      rw [if_neg hd']
  -- the flattened cells of the result, as a map over rationals
  obtain ⟨l, hl⟩ := exists_map_some_of_ne_none (cells A) hfin
  have hcells : cells (normalize A) = ((l.map f).map some) := by
    have h1 : cells (normalize A) = (cells A).map (Option.map f) := by
      rw [cells_normalize, hm, hM]
      refine List.map_congr_left (fun v hv => ?_)
      have hvne : v ≠ none := hfin v hv
      rcases v with _ | x
      · exact absurd rfl hvne
      · show fdiv (fsub (some x) (some m)) (fsub (some M) (some m))
          = Option.map f (some x)
        simp only [fsub, fdiv, Option.map_some']
        rw [if_neg hd']
    rw [h1, hl, List.map_map, List.map_map]
    rfl
  -- the input cells are non-empty, and `m`, `M` are the fold min/max
  rcases l with _ | ⟨a, t⟩
  · exfalso
    unfold arrayMin at hm
    rw [hl] at hm
    simp [reduceVals] at hm
  have hm' : t.foldl min a = m := by
    unfold arrayMin at hm
    rw [hl] at hm
    rw [show ((a :: t).map some) = some a :: t.map some from rfl] at hm
    rw [reduceVals, foldl_fminV_map_some] at hm
    exact Option.some.inj hm
  have hM' : t.foldl max a = M := by
    unfold arrayMax at hM
    rw [hl] at hM
    rw [show ((a :: t).map some) = some a :: t.map some from rfl] at hM
    rw [reduceVals, foldl_fmaxV_map_some] at hM
    exact Option.some.inj hM
  have hf_min : ∀ x y, f (min x y) = min (f x) (f y) := by
    intro x y
    show (min x y - m) / (M - m) = min ((x - m)/(M - m)) ((y - m)/(M - m))
    rw [min_div_div_right hd.le, min_sub_sub_right]
  have hf_max : ∀ x y, f (max x y) = max (f x) (f y) := by
    intro x y
    show (max x y - m) / (M - m) = max ((x - m)/(M - m)) ((y - m)/(M - m))
    rw [max_div_div_right hd.le, max_sub_sub_right]
  -- minimum 0 and maximum 1
  have hmin0 : arrayMin (normalize A) = some 0 := by
    unfold arrayMin
    rw [hcells]
    rw [show ((a :: t).map f).map some = some (f a) :: (t.map f).map some
      from rfl]
    rw [reduceVals, foldl_fminV_map_some, foldl_min_map f hf_min, hm']
    have : f m = 0 := by show (m - m) / (M - m) = 0; rw [sub_self, zero_div]
    rw [this]
  have hmax1 : arrayMax (normalize A) = some 1 := by
    unfold arrayMax
    rw [hcells]
    rw [show ((a :: t).map f).map some = some (f a) :: (t.map f).map some
      from rfl]
    rw [reduceVals, foldl_fmaxV_map_some, foldl_max_map f hf_max, hM']
    have : f M = 1 := by show (M - m) / (M - m) = 1; exact div_self hd'
    rw [this]
  -- idempotence
  have hidem : normalize (normalize A) = normalize A := by
    ext1
    · rfl
    · rfl
    · show (normalize A).data.map (List.map _) = (normalize A).data
      rw [hmin0, hmax1]
      have hall : ∀ v ∈ cells (normalize A), ∃ y, v = some y := by
        intro v hv
        rw [hcells] at hv
        obtain ⟨y, _, rfl⟩ := List.mem_map.mp hv
        exact ⟨y, rfl⟩
      have hrow : ∀ row ∈ (normalize A).data,
          row.map (fun v => fdiv (fsub v (some 0)) (fsub (some 1) (some 0)))
            = row := by
        intro row hrow
        have : ∀ v ∈ row,
            fdiv (fsub v (some 0)) (fsub (some 1) (some 0)) = v := by
          intro v hv
          obtain ⟨y, rfl⟩ := hall v (List.mem_flatten.mpr ⟨row, hrow, hv⟩)
          show fdiv (some (y - 0)) (some (1 - 0)) = some y
          rw [fdiv, if_neg (by norm_num : (1:ℚ) - 0 ≠ 0)]
          norm_num
        calc row.map (fun v => fdiv (fsub v (some 0)) (fsub (some 1) (some 0)))
            = row.map id := List.map_congr_left (fun v hv => this v hv)
          _ = row := List.map_id row
      calc (normalize A).data.map (List.map
              (fun v => fdiv (fsub v (some 0)) (fsub (some 1) (some 0))))
          = (normalize A).data.map id :=
            List.map_congr_left (fun row hr => hrow row hr)
        _ = (normalize A).data := List.map_id _
  exact ⟨rfl, rfl, hdata, hmin0, hmax1, hidem⟩

/-- Concrete witness for C3: the grid with values 1 and 3 has minimum 1,
maximum 3, and its normalization has minimum 0. -/
theorem C3_normalize_minmax_formula_idempotent_witness :
    arrayMin ⟨[0], [0, 1], [[some 1, some 3]]⟩ = some 1
    ∧ arrayMax ⟨[0], [0, 1], [[some 1, some 3]]⟩ = some 3
    ∧ (1:ℚ) < 3
    ∧ arrayMin (normalize ⟨[0], [0, 1], [[some 1, some 3]]⟩) = some 0 := by
  have hm : arrayMin ⟨[0], [0, 1], [[some 1, some 3]]⟩ = some 1 := by
    show some (min 1 3) = some 1
    rw [min_eq_left (by norm_num : (1:ℚ) ≤ 3)]
  have hM : arrayMax ⟨[0], [0, 1], [[some 1, some 3]]⟩ = some 3 := by
    show some (max 1 3) = some 3
    rw [max_eq_right (by norm_num : (1:ℚ) ≤ 3)]
  exact ⟨hm, hM, by norm_num,
    (C3_normalize_minmax_formula_idempotent _ 1 3 hm hM (by norm_num)).2.2.2.1⟩

theorem foldl_fminV_all_const (c : ℚ) (t : List FVal)
    (h : ∀ v ∈ t, v = some c) : t.foldl fminV (some c) = some c := by
  induction t with
  | nil => rfl
  | cons b t ih =>
    rw [List.foldl_cons, h b (List.mem_cons_self _ _),
      show fminV (some c) (some c) = some c by simp [fminV]]
    exact ih (fun v hv => h v (List.mem_cons_of_mem _ hv))

theorem foldl_fmaxV_all_const (c : ℚ) (t : List FVal)
    (h : ∀ v ∈ t, v = some c) : t.foldl fmaxV (some c) = some c := by
  induction t with
  | nil => rfl
  | cons b t ih =>
    rw [List.foldl_cons, h b (List.mem_cons_self _ _),
      show fmaxV (some c) (some c) = some c by simp [fmaxV]]
    exact ih (fun v hv => h v (List.mem_cons_of_mem _ hv))

/-- C4: For a constant array (every cell equal to `c`), `normalize`
does not raise: it is a total function whose division `0/0` yields a
not-a-number value (modelled by `none`) at every position, with the
coordinate labels and row count unchanged. -/
theorem C4_normalize_constant_yields_nan (A : DataArray) (c : ℚ)
    (hconst : ∀ v ∈ cells A, v = some c) :
    (normalize A).latitude = A.latitude
    ∧ (normalize A).longitude = A.longitude
    ∧ (normalize A).data.length = A.data.length
    ∧ ∀ v ∈ cells (normalize A), v = none := by
  refine ⟨rfl, rfl, List.length_map _ _, ?_⟩
  intro v hv
  rw [cells_normalize] at hv
  obtain ⟨w, hw, rfl⟩ := List.mem_map.mp hv
  rcases hcells : cells A with _ | ⟨x, t⟩
  · rw [hcells] at hw; cases hw
  · have hx : x = some c := hconst x (hcells ▸ List.mem_cons_self _ _)
    have ht : ∀ u ∈ t, u = some c := fun u hu =>
      hconst u (hcells ▸ List.mem_cons_of_mem _ hu)
    have hmn : arrayMin A = some c := by
      unfold arrayMin
      rw [hcells, reduceVals, hx]
      exact foldl_fminV_all_const c t ht
    have hmx : arrayMax A = some c := by
      unfold arrayMax
      rw [hcells, reduceVals, hx]
      exact foldl_fmaxV_all_const c t ht
    have hwc : w = some c := hconst w hw
    rw [hmn, hmx, hwc]
    show fdiv (some (c - c)) (some (c - c)) = none
    rw [fdiv, if_pos (by rw [sub_self])]

/-- Concrete witness for C4: a constant grid of 3s normalizes without
raising, keeps its labels, and its first cell is NaN. -/
theorem C4_normalize_constant_yields_nan_witness :
    cells (⟨[0], [0, 1], [[some 3, some 3]]⟩ : DataArray)
        = [some 3, some 3]
    ∧ (normalize ⟨[0], [0, 1], [[some 3, some 3]]⟩).latitude = [0]
    ∧ (cells (normalize ⟨[0], [0, 1], [[some 3, some 3]]⟩)).headI = none :=
  ⟨by decide,
   (C4_normalize_constant_yields_nan ⟨[0], [0, 1], [[some 3, some 3]]⟩ 3
     (by decide)).1,
   (C4_normalize_constant_yields_nan ⟨[0], [0, 1], [[some 3, some 3]]⟩ 3
     (by decide)).2.2.2 _ (List.mem_cons_self _ _)⟩

/-! ## Lemmas about `whereDrop` for separable conditions -/

theorem any_and_const_left {α : Type} (l : List α) (c : Bool) (p : α → Bool) :
    (l.any fun x => c && p x) = (c && l.any p) := by
  cases c
  · simp
  · simp

theorem any_and_const_right {α : Type} (l : List α) (c : Bool) (p : α → Bool) :
    (l.any fun x => p x && c) = (l.any p && c) := by
  cases c
  · simp
  · simp

/-- For a condition that is a conjunction of a latitude test and a
longitude test, `where(cond, drop=True)` filters the two axes
independently (each axis keeps its in-box labels as long as the other
axis hits the box at all) and the residual mask never fires: the kept
cells carry their original values. -/
theorem whereDrop_sep (g : DataArray) (A B : ℚ → Bool) :
    whereDrop g (fun la lo => A la && B lo) =
      ⟨g.latitude.filter (fun la => A la && g.longitude.any B),
       g.longitude.filter (fun lo => B lo && g.latitude.any A),
       ((g.latitude.zip g.data).filter
           (fun p => A p.1 && g.longitude.any B)).map
         (fun p => ((g.longitude.zip p.2).filter
             (fun q => B q.1 && g.latitude.any A)).map Prod.snd)⟩ := by
  unfold whereDrop
  refine DataArray.ext ?_ ?_ ?_
  · exact List.filter_congr (fun la _ => any_and_const_left g.longitude (A la) B)
  · refine List.filter_congr (fun lo _ => ?_)
    rw [any_and_const_right g.latitude (B lo) A, Bool.and_comm]
  · rw [List.filter_congr
      (fun (p : ℚ × List FVal) _ => any_and_const_left g.longitude (A p.1) B)]
    refine List.map_congr_left (fun p hp => ?_)
    have hpA : A p.1 = true :=
      ((Bool.and_eq_true _ _).mp (List.mem_filter.mp hp).2).1
    rw [List.filter_congr (fun (q : ℚ × FVal) _ => by
      rw [any_and_const_right g.latitude (B q.1) A, Bool.and_comm])]
    refine List.map_congr_left (fun q hq => ?_)
    have hqB : B q.1 = true :=
      ((Bool.and_eq_true _ _).mp (List.mem_filter.mp hq).2).1
    simp [hpA, hqB]

theorem length_filter_zip_fst {α β : Type} (l : List α) (d : List β)
    (p : α → Bool) (h : d.length = l.length) :
    ((l.zip d).filter (fun q => p q.1)).length = (l.filter p).length := by
  induction l generalizing d with
  | nil => simp
  | cons a l ih =>
    rcases d with _ | ⟨b, d⟩
    · cases h
    · rw [List.zip_cons_cons, List.filter_cons, List.filter_cons]
      have h' : d.length = l.length := Nat.succ.inj h
      cases hpa : p a
      · rw [if_neg (by simp [hpa]), if_neg (by simp [hpa])]
        exact ih d h'
      · rw [if_pos (by simp [hpa]), if_pos (by simp [hpa]),
          List.length_cons, List.length_cons, ih d h']

theorem length_filter_zip_fst_le {α β : Type} (l : List α) (d : List β)
    (p : α → Bool) :
    ((l.zip d).filter (fun q => p q.1)).length ≤ (l.filter p).length := by
  induction l generalizing d with
  | nil => simp
  | cons a l ih =>
    rcases d with _ | ⟨b, d⟩
    · simp
    · rw [List.zip_cons_cons, List.filter_cons, List.filter_cons]
      cases hpa : p a
      · rw [if_neg (by simp [hpa]), if_neg (by simp [hpa])]
        exact ih d
      · rw [if_pos (by simp [hpa]), if_pos (by simp [hpa]),
          List.length_cons, List.length_cons]
        exact Nat.succ_le_succ (ih d)

theorem whereDrop_empty (cond : ℚ → ℚ → Bool) :
    whereDrop ⟨[], [], []⟩ cond = ⟨[], [], []⟩ := rfl

/-- If either axis misses the box everywhere, `where(cond, drop=True)`
empties both axes and the data. -/
theorem whereDrop_sep_eq_empty (g : DataArray) (A B : ℚ → Bool)
    (h : g.latitude.any A = false ∨ g.longitude.any B = false) :
    whereDrop g (fun la lo => A la && B lo) = ⟨[], [], []⟩ := by
  rw [whereDrop_sep]
  have hfilterdata : ((g.latitude.zip g.data).filter
      (fun p => A p.1 && g.longitude.any B)) = [] := by
    rcases h with hA | hB
    · rw [List.any_eq_false] at hA
      refine List.filter_eq_nil_iff.mpr (fun p hp => ?_)
      simp [hA p.1 (List.of_mem_zip hp).1]
    · rw [hB]
      rw [List.filter_congr (fun p _ => Bool.and_false (A p.1))]
      exact List.filter_false _
  have hlat : g.latitude.filter (fun la => A la && g.longitude.any B) = [] := by
    rcases h with hA | hB
    · rw [List.any_eq_false] at hA
      refine List.filter_eq_nil_iff.mpr (fun la hla => ?_)
      simp [hA la hla]
    · rw [hB]
      rw [List.filter_congr (fun la _ => Bool.and_false (A la))]
      exact List.filter_false _
  have hlon : g.longitude.filter (fun lo => B lo && g.latitude.any A) = [] := by
    rcases h with hA | hB
    · rw [hA]
      rw [List.filter_congr (fun lo _ => Bool.and_false (B lo))]
      exact List.filter_false _
    · rw [List.any_eq_false] at hB
      refine List.filter_eq_nil_iff.mpr (fun lo hlo => ?_)
      simp [hB lo hlo]
  refine DataArray.ext hlat hlon ?_
  rw [hfilterdata]
  rfl

theorem any_congr {α : Type} (l : List α) (p q : α → Bool)
    (h : ∀ a ∈ l, p a = q a) : l.any p = l.any q := by
  induction l with
  | nil => rfl
  | cons a l ih =>
    rw [List.any_cons, List.any_cons, h a (List.mem_cons_self _ _),
      ih (fun x hx => h x (List.mem_cons_of_mem _ hx))]

/-- Without re-assignment, `generate_geographical_subset` is `whereDrop`
with the box condition factored into a latitude test and a longitude
test. -/
theorem generate_false_eq_whereDrop (g : DataArray)
    (latmin latmax lonmin lonmax : ℚ) :
    generate_geographical_subset g latmin latmax lonmin lonmax false
      = whereDrop g (fun la lo =>
          (decide (la < latmax) && decide (la > latmin))
            && (decide (lo < lonmax) && decide (lo > lonmin))) := by
  show whereDrop g _ = whereDrop g _
  congr 1
  funext la lo
  rw [Bool.and_assoc]

/-- With `reassign=true` the function first re-maps the longitude axis, then proceeds as
`reassign=false`. -/
theorem generate_true_eq_reassign_first (g : DataArray)
    (latmin latmax lonmin lonmax : ℚ) :
    generate_geographical_subset g latmin latmax lonmin lonmax true
      = generate_geographical_subset
          ⟨g.latitude, g.longitude.map reassignLon, g.data⟩
          latmin latmax lonmin lonmax false := rfl

/-- Applying `whereDrop` twice with the same separable condition gives the
same result as applying it once. -/
theorem whereDrop_sep_idem (g : DataArray) (A B : ℚ → Bool) :
    whereDrop (whereDrop g (fun la lo => A la && B lo))
        (fun la lo => A la && B lo)
      = whereDrop g (fun la lo => A la && B lo) := by
  rcases hA : g.latitude.any A with _ | _
  · rw [whereDrop_sep_eq_empty g A B (Or.inl hA), whereDrop_empty]
  rcases hB : g.longitude.any B with _ | _
  · rw [whereDrop_sep_eq_empty g A B (Or.inr hB), whereDrop_empty]
  rw [whereDrop_sep g A B, whereDrop_sep]
  have f3 : (g.longitude.filter (fun lo => B lo && g.latitude.any A)).any B
      = true := by
    obtain ⟨lo, hlo, hBlo⟩ := List.any_eq_true.mp hB
    exact List.any_eq_true.mpr
      ⟨lo, List.mem_filter.mpr ⟨hlo, by rw [hBlo, hA]; rfl⟩, hBlo⟩
  have f4 : (g.latitude.filter (fun la => A la && g.longitude.any B)).any A
      = true := by
    obtain ⟨la, hla, hAla⟩ := List.any_eq_true.mp hA
    exact List.any_eq_true.mpr
      ⟨la, List.mem_filter.mpr ⟨hla, by rw [hAla, hB]; rfl⟩, hAla⟩
  refine DataArray.ext ?_ ?_ ?_
  · show (g.latitude.filter (fun la => A la && g.longitude.any B)).filter _
      = g.latitude.filter (fun la => A la && g.longitude.any B)
    refine List.filter_eq_self.mpr (fun la hla => ?_)
    have hAla : A la = true :=
      ((Bool.and_eq_true _ _).mp (List.mem_filter.mp hla).2).1
    rw [hAla, f3]
    rfl
  · show (g.longitude.filter (fun lo => B lo && g.latitude.any A)).filter _
      = g.longitude.filter (fun lo => B lo && g.latitude.any A)
    refine List.filter_eq_self.mpr (fun lo hlo => ?_)
    have hBlo : B lo = true :=
      ((Bool.and_eq_true _ _).mp (List.mem_filter.mp hlo).2).1
    rw [hBlo, f4]
    rfl
  · show ((((g.latitude.filter (fun la => A la && g.longitude.any B)).zip
        (((g.latitude.zip g.data).filter
            (fun p => A p.1 && g.longitude.any B)).map
          (fun p => ((g.longitude.zip p.2).filter
              (fun q => B q.1 && g.latitude.any A)).map Prod.snd))).filter
          _).map _) = _
    set lat' := g.latitude.filter (fun la => A la && g.longitude.any B)
      with hlat'
    set lon' := g.longitude.filter (fun lo => B lo && g.latitude.any A)
      with hlon'
    set data' := ((g.latitude.zip g.data).filter
        (fun p => A p.1 && g.longitude.any B)).map
      (fun p => ((g.longitude.zip p.2).filter
          (fun q => B q.1 && g.latitude.any A)).map Prod.snd) with hdata'
    have houter : (lat'.zip data').filter
        (fun p => A p.1 && lon'.any B) = lat'.zip data' := by
      refine List.filter_eq_self.mpr (fun p hp => ?_)
      have hp1 : p.1 ∈ lat' := (List.of_mem_zip hp).1
      have hA1 : A p.1 = true :=
        ((Bool.and_eq_true _ _).mp (List.mem_filter.mp hp1).2).1
      rw [hA1, f3]
      rfl
    rw [houter]
    have hrowlen : ∀ row ∈ data', row.length ≤ lon'.length := by
      intro row hrow
      obtain ⟨p0, hp0, rfl⟩ := List.mem_map.mp hrow
      rw [List.length_map, hlon']
      exact length_filter_zip_fst_le g.longitude p0.2
        (fun lo => B lo && g.latitude.any A)
    have hinner : ∀ p ∈ lat'.zip data',
        ((lon'.zip p.2).filter (fun q => B q.1 && lat'.any A)).map Prod.snd
          = p.2 := by
      intro p hp
      have hp2 : p.2 ∈ data' := (List.of_mem_zip hp).2
      have hfil : (lon'.zip p.2).filter (fun q => B q.1 && lat'.any A)
          = lon'.zip p.2 := by
        refine List.filter_eq_self.mpr (fun q hq => ?_)
        have hq1 : q.1 ∈ lon' := (List.of_mem_zip hq).1
        have hB1 : B q.1 = true :=
          ((Bool.and_eq_true _ _).mp (List.mem_filter.mp hq1).2).1
        rw [hB1, f4]
        rfl
      rw [hfil]
      exact List.map_snd_zip _ _ (hrowlen p.2 hp2)
    have hdlen : data'.length ≤ lat'.length := by
      rw [hdata', hlat', List.length_map]
      exact length_filter_zip_fst_le g.latitude g.data
        (fun la => A la && g.longitude.any B)
    calc (lat'.zip data').map
          (fun p => ((lon'.zip p.2).filter
              (fun q => B q.1 && lat'.any A)).map Prod.snd)
        = (lat'.zip data').map Prod.snd :=
          List.map_congr_left (fun p hp => hinner p hp)
      _ = data' := List.map_snd_zip _ _ hdlen

/-! ## Claim theorems: geographic subsetting (C1, C5, C8) -/

/-- C1: Subsetting (without re-assignment) keeps only elements whose
latitude is strictly between `latmin` and `latmax` and whose longitude is
strictly between `lonmin` and `lonmax` (a coordinate equal to a bound is
excluded); every strictly-inside coordinate is retained whenever the other
axis hits the box at all; excluded elements are dropped from the shape of
the output (the output is well-formed over its shrunken axes) and the retained
cells carry the original values (the mask never fires); an empty result is
possible and valid. -/
theorem C1_subset_strictly_inside_dropped (g : DataArray)
    (latmin latmax lonmin lonmax : ℚ) (hwf : WellFormed g) :
    (∀ la ∈ (generate_geographical_subset g latmin latmax lonmin lonmax
        false).latitude, latmin < la ∧ la < latmax)
    ∧ (∀ lo ∈ (generate_geographical_subset g latmin latmax lonmin lonmax
        false).longitude, lonmin < lo ∧ lo < lonmax)
    ∧ (∀ la ∈ g.latitude, latmin < la → la < latmax →
        (∃ lo ∈ g.longitude, lonmin < lo ∧ lo < lonmax) →
        la ∈ (generate_geographical_subset g latmin latmax lonmin lonmax
          false).latitude)
    ∧ (∀ lo ∈ g.longitude, lonmin < lo → lo < lonmax →
        (∃ la ∈ g.latitude, latmin < la ∧ la < latmax) →
        lo ∈ (generate_geographical_subset g latmin latmax lonmin lonmax
          false).longitude)
    ∧ WellFormed (generate_geographical_subset g latmin latmax lonmin lonmax
        false)
    ∧ (generate_geographical_subset g latmin latmax lonmin lonmax false).data
        = ((g.latitude.zip g.data).filter (fun p =>
              (decide (p.1 < latmax) && decide (p.1 > latmin))
                && g.longitude.any (fun lo =>
                    decide (lo < lonmax) && decide (lo > lonmin)))).map
            (fun p => ((g.longitude.zip p.2).filter (fun q =>
                (decide (q.1 < lonmax) && decide (q.1 > lonmin))
                  && g.latitude.any (fun la =>
                      decide (la < latmax) && decide (la > latmin)))).map
              Prod.snd)
    ∧ generate_geographical_subset ⟨[0], [0], [[some 0]]⟩ 1 2 1 2 false
        = ⟨[], [], []⟩ := by
  have hgen := (generate_false_eq_whereDrop g latmin latmax lonmin
    lonmax).trans (whereDrop_sep g
      (fun la => decide (la < latmax) && decide (la > latmin))
      (fun lo => decide (lo < lonmax) && decide (lo > lonmin)))
  refine ⟨?_, ?_, ?_, ?_, ?_, ?_, by decide⟩
  · intro la hla
    rw [hgen] at hla
    have h := ((Bool.and_eq_true _ _).mp (List.mem_filter.mp hla).2).1
    rw [Bool.and_eq_true, decide_eq_true_eq, decide_eq_true_eq] at h
    exact ⟨h.2, h.1⟩
  · intro lo hlo
    rw [hgen] at hlo
    have h := ((Bool.and_eq_true _ _).mp (List.mem_filter.mp hlo).2).1
    rw [Bool.and_eq_true, decide_eq_true_eq, decide_eq_true_eq] at h
    exact ⟨h.2, h.1⟩
  · intro la hla h1 h2 hex
    rw [hgen]
    refine List.mem_filter.mpr ⟨hla, ?_⟩
    rw [Bool.and_eq_true, Bool.and_eq_true, decide_eq_true_eq,
      decide_eq_true_eq, List.any_eq_true]
    obtain ⟨lo, hlo, hlo1, hlo2⟩ := hex
    exact ⟨⟨h2, h1⟩, lo, hlo, by
      rw [Bool.and_eq_true, decide_eq_true_eq, decide_eq_true_eq]
      exact ⟨hlo2, hlo1⟩⟩
  · intro lo hlo h1 h2 hex
    rw [hgen]
    refine List.mem_filter.mpr ⟨hlo, ?_⟩
    rw [Bool.and_eq_true, Bool.and_eq_true, decide_eq_true_eq,
      decide_eq_true_eq, List.any_eq_true]
    obtain ⟨la, hla, hla1, hla2⟩ := hex
    exact ⟨⟨h2, h1⟩, la, hla, by
      rw [Bool.and_eq_true, decide_eq_true_eq, decide_eq_true_eq]
      exact ⟨hla2, hla1⟩⟩
  · rw [hgen]
    constructor
    · show (List.map _ (List.filter _ (g.latitude.zip g.data))).length
        = (List.filter _ g.latitude).length
      rw [List.length_map]
      exact length_filter_zip_fst g.latitude g.data
        (fun la => (decide (la < latmax) && decide (la > latmin))
          && g.longitude.any (fun lo =>
              decide (lo < lonmax) && decide (lo > lonmin))) hwf.1
    · intro row hrow
      obtain ⟨p, hp, rfl⟩ := List.mem_map.mp hrow
      have hp2 : p.2 ∈ g.data :=
        (List.of_mem_zip (List.mem_of_mem_filter hp)).2
      show (List.map _ (List.filter _ (g.longitude.zip p.2))).length
        = (List.filter _ g.longitude).length
      rw [List.length_map]
      exact length_filter_zip_fst g.longitude p.2
        (fun lo => (decide (lo < lonmax) && decide (lo > lonmin))
          && g.latitude.any (fun la =>
              decide (la < latmax) && decide (la > latmin)))
        (hwf.2 p.2 hp2)
  · rw [hgen]

/-- Concrete witness for C1: a well-formed one-cell grid, subset with a box
that strictly contains its coordinates, keeps its latitude. -/
theorem C1_subset_strictly_inside_dropped_witness :
    WellFormed ⟨[0], [0], [[some 5]]⟩
    ∧ (0:ℚ) ∈ (generate_geographical_subset ⟨[0], [0], [[some 5]]⟩
        (-1) 1 (-1) 1 false).latitude :=
  ⟨by decide,
   (C1_subset_strictly_inside_dropped ⟨[0], [0], [[some 5]]⟩
       (-1) 1 (-1) 1 (by decide)).2.2.1 0 (by decide)
     (by norm_num) (by norm_num) ⟨0, by decide, by norm_num, by norm_num⟩⟩

/-- C8: Subsetting is idempotent: applying
`generate_geographical_subset` with the same bounding box to its own
output returns that output unchanged. -/
theorem C8_subset_idempotent (g : DataArray)
    (latmin latmax lonmin lonmax : ℚ) :
    generate_geographical_subset
        (generate_geographical_subset g latmin latmax lonmin lonmax false)
        latmin latmax lonmin lonmax false
      = generate_geographical_subset g latmin latmax lonmin lonmax false := by
  rw [generate_false_eq_whereDrop, generate_false_eq_whereDrop]
  exact whereDrop_sep_idem g
    (fun la => decide (la < latmax) && decide (la > latmin))
    (fun lo => decide (lo < lonmax) && decide (lo > lonmin))

/-- C5: The concrete scenario: a grid with 0–360 longitude axis
`[350, 355, 0, 5, 10]`, subset with `reassign=true` and the box
`latmin=-10, latmax=10, lonmin=-10, lonmax=10`, re-maps the longitudes to
`[-10, -5, 0, 5, 10]` and retains exactly the columns at re-mapped
longitudes -5, 0 and 5, excluding the boundary values -10 and 10. -/
theorem C5_concrete_reassign_scenario :
    [(350 : ℚ), 355, 0, 5, 10].map reassignLon = [-10, -5, 0, 5, 10]
    ∧ generate_geographical_subset
        ⟨[0], [350, 355, 0, 5, 10],
         [[some 1, some 2, some 3, some 4, some 5]]⟩
        (-10) 10 (-10) 10 true
      = ⟨[0], [-5, 0, 5], [[some 2, some 3, some 4]]⟩ := by
  have h350 : reassignLon 350 = -10 := by
    unfold reassignLon pymod
    norm_num
  have h355 : reassignLon 355 = -5 := by
    unfold reassignLon pymod
    norm_num
  have h0 : reassignLon 0 = 0 := by
    unfold reassignLon pymod
    norm_num
  have h5 : reassignLon 5 = 5 := by
    unfold reassignLon pymod
    norm_num
  have h10 : reassignLon 10 = 10 := by
    unfold reassignLon pymod
    norm_num
  have hmap : [(350 : ℚ), 355, 0, 5, 10].map reassignLon
      = [-10, -5, 0, 5, 10] := by
    simp only [List.map_cons, List.map_nil, h350, h355, h0, h5, h10]
  refine ⟨hmap, ?_⟩
  rw [generate_true_eq_reassign_first]
  show generate_geographical_subset
      ⟨[0], [(350 : ℚ), 355, 0, 5, 10].map reassignLon,
       [[some 1, some 2, some 3, some 4, some 5]]⟩
      (-10) 10 (-10) 10 false = _
  rw [hmap]
  decide

end Wekeo
